import Mathlib

/-!
Shallow embedding of the mockito-example HTTP aggregation service
(`src/main.rs`): the JSON data model and `serde_json`-style decoding used by
`from_slice`, the URL builders, the two route handlers `basic` and `double`,
`do_get_req`, and the router `route`.  Outbound HTTP is modelled by an
environment mapping each requested URL to its outcome, and every handler
threads a trace of the GET requests it has issued so far, so that ordering
and short-circuit properties are statable.
-/

namespace Srv

/-- A parsed JSON value.  Numbers keep their source lexeme: the service never
reads a numeric field, so no float semantics is needed. -/
inductive Json where
  | null
  | bool (b : Bool)
  | num (lexeme : String)
  | str (s : String)
  | arr (elems : List Json)
  | obj (members : List (String × Json))
deriving Repr

/-- JSON insignificant whitespace: space, tab, line feed, carriage return. -/
def jsonWs (c : Char) : Bool :=
  let n := c.toNat
  n == 32 || n == 9 || n == 10 || n == 13

/-- Drop leading JSON whitespace. -/
def skipWs : List Char → List Char
  | [] => []
  | c :: cs => if jsonWs c then skipWs cs else c :: cs

/-- Value of one hexadecimal digit, if it is one, by code point: decimal
digits sit at 48 to 57, lower-case letters at 97 to 102 and upper-case at 65
to 70. -/
def hexDigitVal (c : Char) : Option Nat :=
  let n := c.toNat
  if 48 ≤ n ∧ n ≤ 57 then some (n - 48)
  else if 97 ≤ n ∧ n ≤ 102 then some (n - 87)
  else if 65 ≤ n ∧ n ≤ 70 then some (n - 55)
  else none

/-- Value of a four-hex-digit escape payload. -/
def hexQuad (a b c d : Char) : Option Nat := do
  let x ← hexDigitVal a
  let y ← hexDigitVal b
  let z ← hexDigitVal c
  let w ← hexDigitVal d
  pure (((x * 16 + y) * 16 + z) * 16 + w)

/-- Single-character JSON escapes. -/
def escChar : Char → Option Char
  | '"' => some '"'
  | '\\' => some '\\'
  | '/' => some '/'
  | 'b' => some (Char.ofNat 8)
  | 'f' => some (Char.ofNat 12)
  | 'n' => some '\n'
  | 'r' => some '\r'
  | 't' => some '\t'
  | _ => none

/-- Body of a JSON string after the opening quote, accumulating decoded
characters in reverse.  Mirrors `serde_json`: raw control characters are
rejected, `\uXXXX` escapes decode code points, surrogate halves must come in
well-ordered pairs. -/
def strBody (acc : List Char) : List Char → Option (String × List Char)
  | '"' :: rest => some (⟨acc.reverse⟩, rest)
  | '\\' :: 'u' :: a :: b :: c :: d :: rest =>
    match hexQuad a b c d with
    | none => none
    | some n =>
      if 0xD800 ≤ n && n ≤ 0xDBFF then
        match rest with
        | '\\' :: 'u' :: a2 :: b2 :: c2 :: d2 :: rest2 =>
          match hexQuad a2 b2 c2 d2 with
          | none => none
          | some m =>
            if 0xDC00 ≤ m && m ≤ 0xDFFF then
              strBody (Char.ofNat (0x10000 + (n - 0xD800) * 0x400 + (m - 0xDC00)) :: acc) rest2
            else none
        | _ => none
      else if 0xDC00 ≤ n && n ≤ 0xDFFF then none
      else strBody (Char.ofNat n :: acc) rest
  | '\\' :: e :: rest =>
    match escChar e with
    | none => none
    | some ch => strBody (ch :: acc) rest
  | c :: rest => if c.toNat < 0x20 then none else strBody (c :: acc) rest
  | [] => none

/-- Exponent tail of a number lexeme, after the `e`/`E` marker. -/
def expTail (e : Char) (r : List Char) : Option (List Char × List Char) :=
  let (sgn, r1) := match r with
    | '+' :: r2 => ((['+'] : List Char), r2)
    | '-' :: r2 => ((['-'] : List Char), r2)
    | _ => ([], r)
  match List.span Char.isDigit r1 with
  | ([], _) => none
  | (ds, r2) => some (e :: (sgn ++ ds), r2)

/-- Optional fraction part of a number lexeme. -/
def fracPart : List Char → Option (List Char × List Char)
  | '.' :: r =>
    (match List.span Char.isDigit r with
     | ([], _) => none
     | (fs, r2) => some ('.' :: fs, r2))
  | cs => some ([], cs)

/-- Optional exponent part of a number lexeme. -/
def expPart : List Char → Option (List Char × List Char)
  | 'e' :: r => expTail 'e' r
  | 'E' :: r => expTail 'E' r
  | cs => some ([], cs)

/-- A JSON number, kept as its lexeme.  Leading zeros are rejected as in
`serde_json`; a lone minus sign or empty digit run fails. -/
def numberToken (cs : List Char) : Option (Json × List Char) :=
  let (sign, cs1) := match cs with
    | '-' :: r => ((['-'] : List Char), r)
    | _ => ([], cs)
  match List.span Char.isDigit cs1 with
  | ([], _) => none
  | (ds, rest) =>
    if 1 < ds.length && ds.headD '0' == '0' then none
    else
      match fracPart rest with
      | none => none
      | some (fs, rest2) =>
        match expPart rest2 with
        | none => none
        | some (es, rest3) => some (.num ⟨sign ++ ds ++ fs ++ es⟩, rest3)

mutual

/-- One JSON value (fuel-bounded recursion; fuel only limits nesting). -/
def parseValue : Nat → List Char → Option (Json × List Char)
  | 0, _ => none
  | fuel + 1, cs =>
    match skipWs cs with
    | 'n' :: 'u' :: 'l' :: 'l' :: r => some (.null, r)
    | 't' :: 'r' :: 'u' :: 'e' :: r => some (.bool true, r)
    | 'f' :: 'a' :: 'l' :: 's' :: 'e' :: r => some (.bool false, r)
    | '"' :: r =>
      (match strBody [] r with
       | some (s, r2) => some (.str s, r2)
       | none => none)
    | '\x7b' :: r =>
      (match skipWs r with
       | '\x7d' :: r2 => some (.obj [], r2)
       | r2 =>
         match parseMembers fuel r2 with
         | some (ms, r3) => some (.obj ms, r3)
         | none => none)
    | '[' :: r =>
      (match skipWs r with
       | ']' :: r2 => some (.arr [], r2)
       | r2 =>
         match parseElems fuel r2 with
         | some (vs, r3) => some (.arr vs, r3)
         | none => none)
    | cs2 => numberToken cs2

/-- One-or-more comma-separated array elements, then the closing bracket. -/
def parseElems : Nat → List Char → Option (List Json × List Char)
  | 0, _ => none
  | fuel + 1, cs =>
    match parseValue fuel cs with
    | none => none
    | some (v, r) =>
      match skipWs r with
      | ',' :: r2 =>
        (match parseElems fuel r2 with
         | some (vs, r3) => some (v :: vs, r3)
         | none => none)
      | ']' :: r2 => some ([v], r2)
      | _ => none

/-- One-or-more comma-separated object members, then the closing brace. -/
def parseMembers : Nat → List Char → Option (List (String × Json) × List Char)
  | 0, _ => none
  | fuel + 1, cs =>
    match skipWs cs with
    | '"' :: r =>
      (match strBody [] r with
       | none => none
       | some (key, r1) =>
         match skipWs r1 with
         | ':' :: r2 =>
           (match parseValue fuel r2 with
            | none => none
            | some (v, r3) =>
              match skipWs r3 with
              | ',' :: r4 =>
                (match parseMembers fuel r4 with
                 | some (ms, r5) => some ((key, v) :: ms, r5)
                 | none => none)
              | '\x7d' :: r4 => some ([(key, v)], r4)
              | _ => none)
         | _ => none)
    | _ => none

end

/-- A whole JSON document: one value surrounded by whitespace only.  This is
the syntax phase of `serde_json` decoding. -/
def parseJson (s : String) : Option Json :=
  match parseValue (2 * s.length + 2) s.data with
  | some (j, rest) => if (skipWs rest).isEmpty then some j else none
  | none => none

/-- Rust `struct TODO` with one field `title: String` in `src/main.rs`. -/
structure TODO where
  title : String
deriving Repr

/-- Rust `struct CatFact` with one field `text: String` in `src/main.rs`. -/
structure CatFact where
  text : String
deriving Repr

/-- Field loop of a derived `Deserialize` visitor for a single-string-field
struct: walk the members in order, ignore unknown keys, reject a duplicate or
non-string occurrence of `name`, and require the field to have been seen by
the end. -/
def findField (name : String) : List (String × Json) → Option String → Except String String
  | [], none => .error ("missing field " ++ name)
  | [], some t => .ok t
  | (k, v) :: rest, acc =>
    if k = name then
      match acc, v with
      | some _, _ => .error ("duplicate field " ++ name)
      | none, .str s => findField name rest (some s)
      | none, _ => .error ("invalid type for field " ++ name)
    else findField name rest acc

/-- Deserialize a parsed JSON value as a `TODO`: it must be an object with a
string field `title`. -/
def deTODO : Json → Except String TODO
  | .obj members => (findField "title" members none).map TODO.mk
  | _ => .error "invalid type: expected struct TODO"

/-- Deserialize a parsed JSON value as a `CatFact`: it must be an object with
a string field `text`. -/
def deCatFact : Json → Except String CatFact
  | .obj members => (findField "text" members none).map CatFact.mk
  | _ => .error "invalid type: expected struct CatFact"

/-- The call `from_slice` at type `TODO` made by `basic` and `double`: parse,
then deserialize. -/
def decodeTodo (s : String) : Except String TODO :=
  match parseJson s with
  | none => .error "invalid JSON"
  | some j => deTODO j

/-- The call `from_slice` at type `CatFact` made by `double`: parse, then
deserialize. -/
def decodeCatFact (s : String) : Except String CatFact :=
  match parseJson s with
  | none => .error "invalid JSON"
  | some j => deCatFact j

/-! ### HTTP model

An upstream response carries a status code and a body read that may itself
fail (`hyper::body::to_bytes` is fallible).  The network is an environment
mapping each URL to the outcome of a GET against it; request-construction
failures in `Request::builder` are folded into the same error outcome.
Handlers thread a trace of the URLs they have requested, in order. -/

/-- An upstream HTTP response: status code plus a fallible body read. -/
structure HResponse where
  status : Nat
  body : Except String String

/-- The outcome of every possible outbound GET. -/
abbrev Upstream : Type := String → Except String HResponse

/-- URLs requested so far, in order. -/
abbrev Trace : Type := List String

/-- An inbound request: method, raw request target, headers, body. -/
structure HRequest where
  method : String
  uri : String
  headers : List (String × String)
  body : String

/-- Rust `struct ServerCfg` from `src/main.rs`. -/
structure ServerCfg where
  cats_url : String
  todo_url : String

/-- Rust `fn get_cats_url`: append `/facts/random` to the base URL. -/
def get_cats_url (base_url : String) : String := base_url ++ "/facts/random"

/-- Rust `fn get_todo_url`: append `/todos/1` to the base URL. -/
def get_todo_url (base_url : String) : String := base_url ++ "/todos/1"

/-- Rust `async fn do_get_req`: issue a GET for `uri`; the environment decides the
outcome, and the URL is appended to the trace.  The response is returned as
is — its status code is never inspected. -/
def do_get_req (env : Upstream) (uri : String) (t : Trace) :
    Except String HResponse × Trace :=
  (env uri, t ++ [uri])

/-- Rust `async fn basic`: GET the to-do URL, read the body, decode a `TODO`,
return its `title`.  Each `?` is an early return carrying the error.  The
inbound request `_req` is ignored. -/
def basic (env : Upstream) ( _req : HRequest) (todo_url : String) (t : Trace) :
    Except String String × Trace :=
  let (r, t1) := do_get_req env (get_todo_url todo_url) t
  match r with
  | .error e => (.error e, t1)
  | .ok res =>
    match res.body with
    | .error e => (.error e, t1)
    | .ok body =>
      match decodeTodo body with
      | .error e => (.error e, t1)
      | .ok todo => (.ok todo.title, t1)

/-- Rust `async fn double`: fetch and decode the to-do item in full, then fetch and
decode the cat fact, then format `"Todo: \x7b\x7d, Cat Fact: \x7b\x7d"`.  The
inbound request `_req` is ignored. -/
def double (env : Upstream) ( _req : HRequest) (cats_url todo_url : String)
    (t : Trace) : Except String String × Trace :=
  let (rT, t1) := do_get_req env (get_todo_url todo_url) t
  match rT with
  | .error e => (.error e, t1)
  | .ok res_todo =>
    match res_todo.body with
    | .error e => (.error e, t1)
    | .ok body_todo =>
      match decodeTodo body_todo with
      | .error e => (.error e, t1)
      | .ok todo =>
        let (rC, t2) := do_get_req env (get_cats_url cats_url) t1
        match rC with
        | .error e => (.error e, t2)
        | .ok res_cats =>
          match res_cats.body with
          | .error e => (.error e, t2)
          | .ok body_cats =>
            match decodeCatFact body_cats with
            | .error e => (.error e, t2)
            | .ok fact =>
              (.ok ("Todo: " ++ todo.title ++ ", Cat Fact: " ++ fact.text), t2)

/-- The response `route` builds for the inbound request. -/
structure RouteResponse where
  status : Nat
  body : String

/-- The path component of the request target, as the hyper `Uri` type reports
it: everything before the query or fragment delimiter. -/
def uriPath (uri : String) : String :=
  ⟨uri.data.takeWhile (fun c => c ≠ '?' && c ≠ '#')⟩

/-- Rust `async fn route`: start from an empty 200 response, then match on
`(method, path)`; `GET /basic` and `GET /double` fill the body from the
handler (propagating its error), anything else becomes 404 Not Found. -/
def route (env : Upstream) (cfg : ServerCfg) (req : HRequest) (t : Trace) :
    Except String RouteResponse × Trace :=
  if req.method = "GET" ∧ uriPath req.uri = "/basic" then
    match basic env req cfg.todo_url t with
    | (.error e, t1) => (.error e, t1)
    | (.ok b, t1) => (.ok ⟨200, b⟩, t1)
  else if req.method = "GET" ∧ uriPath req.uri = "/double" then
    match double env req cfg.cats_url cfg.todo_url t with
    | (.error e, t1) => (.error e, t1)
    | (.ok b, t1) => (.ok ⟨200, b⟩, t1)
  else
    (.ok ⟨404, ""⟩, t)

/-! ### Concrete fixtures

The bodies and the mock upstream mirror the `mockito` setup of the tests in
`src/main.rs`: both base URLs point at one server, which answers the to-do
path with the to-do body and everything else with the cat-fact body. -/

/-- The to-do body served by the tests in `src/main.rs`. -/
def todoBodyW : String := "\x7b\"title\": \"get another cat\"\x7d"

/-- The cat-fact body served by the tests in `src/main.rs`. -/
def catBodyW : String := "\x7b\"text\": \"cats are the best living creatures in the universe\"\x7d"

/-- A to-do body with an embedded comma and colon in the title and unknown
fields around it. -/
def messyTodoBody : String := "\x7b\"id\": 1, \"title\": \"a, b: c\", \"completed\": false\x7d"

/-- A cat-fact body with an embedded comma and colon and an unknown field. -/
def messyCatBody : String := "\x7b\"text\": \"x: y, z\", \"extra\": null\x7d"

/-- The mock upstream of the tests: the to-do URL gets the to-do body, any
other URL gets the cat-fact body; every answer has status 200. -/
def envW : Upstream := fun u =>
  if u == get_todo_url "http://m" then .ok ⟨200, .ok todoBodyW⟩
  else .ok ⟨200, .ok catBodyW⟩

/-- An unreachable upstream: every GET fails with a connection error. -/
def envDown : Upstream := fun _ => .error "connection refused"

/-- An upstream answering with non-2xx statuses but well-formed bodies. -/
def env500 : Upstream := fun u =>
  if u == get_todo_url "http://m" then .ok ⟨500, .ok todoBodyW⟩
  else .ok ⟨404, .ok catBodyW⟩

/-- A GET request for the given target, with no headers and an empty body. -/
def getReq (target : String) : HRequest := ⟨"GET", target, [], ""⟩

/-- The configuration of the tests: both base URLs name the mock server. -/
def cfgW : ServerCfg := ⟨"http://m", "http://m"⟩

/-! ### Helper lemmas -/

/-- The two outbound URLs can never coincide, whatever the two configured
base URLs are: their last characters differ. -/
theorem urls_ne (cats_url todo_url : String) :
    get_cats_url cats_url ≠ get_todo_url todo_url := by
  intro h
  have h2 := congrArg (fun s : String => s.data.getLast?) h
  simp only [get_cats_url, get_todo_url, String.data_append, List.getLast?_append] at h2
  have h3 : (some 'm' : Option Char) = some '1' := h2
  exact absurd h3 (by decide)

/-- A field loop that has already recorded the value and meets no further
occurrence of the field returns the recorded value. -/
theorem findField_skip (name : String) (fields : List (String × Json)) (t : String)
    (h0 : fields.countP (fun kv => kv.1 == name) = 0) :
    findField name fields (some t) = .ok t := by
  induction fields with
  | nil => rfl
  | cons kv rest ih =>
    obtain ⟨k, v⟩ := kv
    rw [List.countP_cons] at h0
    by_cases hk : k = name
    · simp [hk] at h0
    · simp only [findField]
      rw [if_neg hk]
      exact ih (by simpa [hk] using h0)

/-- A field loop over members containing exactly one occurrence of the field,
bound to a string, returns that string. -/
theorem findField_found (name : String) (fields : List (String × Json)) (T : String)
    (hmem : (name, Json.str T) ∈ fields)
    (hone : fields.countP (fun kv => kv.1 == name) = 1) :
    findField name fields none = .ok T := by
  induction fields with
  | nil => simp at hmem
  | cons kv rest ih =>
    obtain ⟨k, v⟩ := kv
    rcases List.mem_cons.mp hmem with heq | hmem2
    · obtain ⟨hk, hv⟩ := Prod.mk.injEq .. ▸ heq
      subst hk
      subst hv
      rw [List.countP_cons_of_pos _ _ (by simp)] at hone
      simp only [findField, if_true]
      exact findField_skip name rest T (by omega)
    · by_cases hk : k = name
      · exfalso
        have hpos : 0 < rest.countP (fun kv => kv.1 == name) :=
          List.countP_pos_iff.mpr ⟨(name, Json.str T), hmem2, by simp⟩
        rw [List.countP_cons_of_pos _ _ (by simp [hk])] at hone
        omega
      · rw [List.countP_cons_of_neg _ _ (by simp [hk])] at hone
        simp only [findField]
        rw [if_neg hk]
        exact ih hmem2 hone

/-- A field loop over members in which the field never occurs with a string
value ends in an error. -/
theorem findField_absent (name : String) (fields : List (String × Json))
    (h : ∀ t : String, (name, Json.str t) ∉ fields) :
    ∃ e, findField name fields none = .error e := by
  induction fields with
  | nil => exact ⟨_, rfl⟩
  | cons kv rest ih =>
    obtain ⟨k, v⟩ := kv
    by_cases hk : k = name
    · subst hk
      have hv : ∀ s : String, v ≠ Json.str s := by
        intro s hs
        exact h s (by rw [hs]; exact List.mem_cons_self _ _)
      simp only [findField, if_pos rfl]
      cases v with
      | null => exact ⟨_, rfl⟩
      | bool b => exact ⟨_, rfl⟩
      | num n => exact ⟨_, rfl⟩
      | str s => exact absurd rfl (hv s)
      | arr es => exact ⟨_, rfl⟩
      | obj ms => exact ⟨_, rfl⟩
    · simp only [findField]
      rw [if_neg hk]
      exact ih (fun t ht => h t (List.mem_cons_of_mem _ ht))

/-- Dispatch lemma: a GET whose path is `/basic` runs the `basic` handler and
wraps a successful body in a 200 response. -/
theorem route_basic_ok (env : Upstream) (cfg : ServerCfg) (req : HRequest) (t t1 : Trace)
    (b : String) (hm : req.method = "GET") (hp : uriPath req.uri = "/basic")
    (hb : basic env req cfg.todo_url t = (.ok b, t1)) :
    route env cfg req t = (.ok ⟨200, b⟩, t1) := by
  simp [route, hm, hp, hb]

/-- Dispatch lemma: a GET whose path is `/double` runs the `double` handler
and wraps a successful body in a 200 response. -/
theorem route_double_ok (env : Upstream) (cfg : ServerCfg) (req : HRequest) (t t1 : Trace)
    (b : String) (hm : req.method = "GET") (hp : uriPath req.uri = "/double")
    (hb : double env req cfg.cats_url cfg.todo_url t = (.ok b, t1)) :
    route env cfg req t = (.ok ⟨200, b⟩, t1) := by
  simp [route, hm, hp, hb]

/-- Dispatch lemma: any other method or path is answered 404 with an empty
body and no outbound request. -/
theorem route_miss (env : Upstream) (cfg : ServerCfg) (req : HRequest) (t : Trace)
    (h : ¬(req.method = "GET" ∧ (uriPath req.uri = "/basic" ∨ uriPath req.uri = "/double"))) :
    route env cfg req t = (.ok ⟨404, ""⟩, t) := by
  rw [route, if_neg (fun hc => h ⟨hc.1, Or.inl hc.2⟩), if_neg (fun hc => h ⟨hc.1, Or.inr hc.2⟩)]

/-- Over a run of characters the predicate accepts, `takeWhile` stops exactly
at the first rejected character, whatever follows it. -/
theorem takeWhile_append_stop (p : Char → Bool) (l1 : List Char) (x : Char) (l2 : List Char)
    (h1 : ∀ c ∈ l1, p c = true) (hx : p x = false) :
    (l1 ++ x :: l2).takeWhile p = l1 := by
  induction l1 with
  | nil => simp [List.takeWhile_cons, hx]
  | cons c cs ih =>
    have hc := h1 c (List.mem_cons_self _ _)
    simp [List.takeWhile_cons, hc, ih (fun d hd => h1 d (List.mem_cons_of_mem _ hd))]

/-- The path of a `/basic` target with a query string is `/basic`. -/
theorem uriPath_basic_query (q : String) : uriPath ("/basic?" ++ q) = "/basic" := by
  have hdata : ("/basic?" ++ q).data = "/basic".data ++ '?' :: q.data := by
    rw [String.data_append]
    rfl
  unfold uriPath
  rw [hdata, takeWhile_append_stop _ _ _ _ (by decide) (by decide)]

/-- The path of a `/double` target with a query string is `/double`. -/
theorem uriPath_double_query (q : String) : uriPath ("/double?" ++ q) = "/double" := by
  have hdata : ("/double?" ++ q).data = "/double".data ++ '?' :: q.data := by
    rw [String.data_append]
    rfl
  unfold uriPath
  rw [hdata, takeWhile_append_stop _ _ _ _ (by decide) (by decide)]

/-! ### The claims -/

/-- C1: routing is total.  For every inbound request, `route` classifies the
(method, path) pair and returns a response: a GET for `/basic` or `/double`
whose handler succeeds yields status 200 with the handler output as body, and
every other (method, path) pair yields status 404 with an empty body — no
unhandled case. -/
theorem route_total (env : Upstream) (cfg : ServerCfg) (req : HRequest) (t : Trace) :
    ((req.method = "GET" ∧ uriPath req.uri = "/basic") →
      ∀ b t1, basic env req cfg.todo_url t = (.ok b, t1) →
        route env cfg req t = (.ok ⟨200, b⟩, t1)) ∧
    ((req.method = "GET" ∧ uriPath req.uri = "/double") →
      ∀ b t1, double env req cfg.cats_url cfg.todo_url t = (.ok b, t1) →
        route env cfg req t = (.ok ⟨200, b⟩, t1)) ∧
    (¬(req.method = "GET" ∧ (uriPath req.uri = "/basic" ∨ uriPath req.uri = "/double")) →
      route env cfg req t = (.ok ⟨404, ""⟩, t)) :=
  ⟨fun h b t1 hb => route_basic_ok env cfg req t t1 b h.1 h.2 hb,
   fun h b t1 hb => route_double_ok env cfg req t t1 b h.1 h.2 hb,
   fun h => route_miss env cfg req t h⟩

/-- C1 witness: the three routing cases at concrete requests against the
mock upstream of the tests. -/
theorem route_total_witness :
    route envW cfgW (getReq "/basic") [] =
      (.ok ⟨200, "get another cat"⟩, [get_todo_url "http://m"]) ∧
    route envW cfgW (getReq "/double") [] =
      (.ok ⟨200,
        "Todo: get another cat, Cat Fact: cats are the best living creatures in the universe"⟩,
        [get_todo_url "http://m", get_cats_url "http://m"]) ∧
    route envW cfgW (getReq "/nonexistent") [] = (.ok ⟨404, ""⟩, []) :=
  ⟨(route_total envW cfgW (getReq "/basic") []).1 ⟨rfl, rfl⟩ _ _ rfl,
   (route_total envW cfgW (getReq "/double") []).2.1 ⟨rfl, rfl⟩ _ _ rfl,
   (route_total envW cfgW (getReq "/nonexistent") []).2.2 (by decide)⟩

/-- C2: whenever the to-do upstream returns a body that decodes to a `TODO`
with title `T`, the `basic` handler returns exactly `T` as the response body
text with no extra formatting, and the routed response has status 200. -/
theorem basic_returns_title (env : Upstream) (cfg : ServerCfg) (req : HRequest)
    (t : Trace) (res : HResponse) (body T : String)
    (hreq : env (get_todo_url cfg.todo_url) = .ok res)
    (hbody : res.body = .ok body)
    (hdec : decodeTodo body = .ok ⟨T⟩)
    (hm : req.method = "GET") (hp : uriPath req.uri = "/basic") :
    (basic env req cfg.todo_url t).1 = .ok T ∧
    (route env cfg req t).1 = .ok ⟨200, T⟩ := by
  have hb1 : (basic env req cfg.todo_url t).1 = .ok T := by
    simp [basic, do_get_req, hreq, hbody, hdec]
  have hb : basic env req cfg.todo_url t = (.ok T, (basic env req cfg.todo_url t).2) :=
    Prod.ext hb1 rfl
  exact ⟨hb1, by rw [route_basic_ok env cfg req t _ T hm hp hb]⟩

/-- C2 witness: with the upstream of the tests returning the sample to-do
body, `GET /basic` yields body exactly `get another cat` with status 200. -/
theorem basic_returns_title_witness :
    (basic envW (getReq "/basic") cfgW.todo_url []).1 = .ok "get another cat" ∧
    (route envW cfgW (getReq "/basic") []).1 = .ok ⟨200, "get another cat"⟩ :=
  basic_returns_title envW cfgW (getReq "/basic") [] ⟨200, .ok todoBodyW⟩ todoBodyW
    "get another cat" rfl rfl rfl rfl rfl

/-- C3: whenever the upstreams return bodies decoding to a `TODO` with title
`T` and a `CatFact` with text `F`, the `double` handler returns exactly the
text `Todo: T, Cat Fact: F` — literal comma-space separator, literal
colon-space after each label, no other characters — and the routed response
has status 200 with that body. -/
theorem double_formats (env : Upstream) (cfg : ServerCfg) (req : HRequest) (t : Trace)
    (resT resC : HResponse) (bT bC T F : String)
    (h1 : env (get_todo_url cfg.todo_url) = .ok resT) (h2 : resT.body = .ok bT)
    (h3 : decodeTodo bT = .ok ⟨T⟩)
    (h4 : env (get_cats_url cfg.cats_url) = .ok resC) (h5 : resC.body = .ok bC)
    (h6 : decodeCatFact bC = .ok ⟨F⟩)
    (hm : req.method = "GET") (hp : uriPath req.uri = "/double") :
    (double env req cfg.cats_url cfg.todo_url t).1 =
      .ok ("Todo: " ++ T ++ ", Cat Fact: " ++ F) ∧
    (route env cfg req t).1 = .ok ⟨200, "Todo: " ++ T ++ ", Cat Fact: " ++ F⟩ := by
  have hb1 : (double env req cfg.cats_url cfg.todo_url t).1 =
      .ok ("Todo: " ++ T ++ ", Cat Fact: " ++ F) := by
    simp [double, do_get_req, h1, h2, h3, h4, h5, h6]
  have hb : double env req cfg.cats_url cfg.todo_url t =
      (.ok ("Todo: " ++ T ++ ", Cat Fact: " ++ F),
       (double env req cfg.cats_url cfg.todo_url t).2) :=
    Prod.ext hb1 rfl
  exact ⟨hb1, by rw [route_double_ok env cfg req t _ _ hm hp hb]⟩

/-- C3 witness: against upstreams serving the two sample bodies of the tests,
`GET /double` yields exactly the composed sentence with status 200. -/
theorem double_formats_witness :
    (double envW (getReq "/double") cfgW.cats_url cfgW.todo_url []).1 =
      .ok "Todo: get another cat, Cat Fact: cats are the best living creatures in the universe" ∧
    (route envW cfgW (getReq "/double") []).1 =
      .ok ⟨200,
        "Todo: get another cat, Cat Fact: cats are the best living creatures in the universe"⟩ :=
  double_formats envW cfgW (getReq "/double") [] ⟨200, .ok todoBodyW⟩ ⟨200, .ok catBodyW⟩
    todoBodyW catBodyW "get another cat"
    "cats are the best living creatures in the universe" rfl rfl rfl rfl rfl rfl rfl rfl

/-- C4: any valid JSON object body with exactly one `title` member, bound to
the string `T`, decodes to a `TODO` whose title is `T`, whatever other
unknown members the object carries. -/
theorem decodeTodo_extracts_title (s : String) (fields : List (String × Json)) (T : String)
    (hp : parseJson s = some (Json.obj fields))
    (hmem : ("title", Json.str T) ∈ fields)
    (hone : fields.countP (fun kv => kv.1 == "title") = 1) :
    decodeTodo s = .ok ⟨T⟩ := by
  simp only [decodeTodo, hp, deTODO]
  rw [findField_found "title" fields T hmem hone]
  rfl

/-- C4 witness: a body with unknown members around `title` and an embedded
comma and colon inside the title text. -/
theorem decodeTodo_extracts_title_witness :
    decodeTodo messyTodoBody = .ok ⟨"a, b: c"⟩ :=
  decodeTodo_extracts_title messyTodoBody
    [("id", Json.num "1"), ("title", Json.str "a, b: c"), ("completed", Json.bool false)]
    "a, b: c" rfl (List.mem_cons_of_mem _ (List.mem_cons_self _ _)) rfl

/-- C5: any valid JSON object body with exactly one `text` member, bound to
the string `F`, decodes to a `CatFact` whose text is `F`, ignoring unknown
members. -/
theorem decodeCatFact_extracts_text (s : String) (fields : List (String × Json)) (F : String)
    (hp : parseJson s = some (Json.obj fields))
    (hmem : ("text", Json.str F) ∈ fields)
    (hone : fields.countP (fun kv => kv.1 == "text") = 1) :
    decodeCatFact s = .ok ⟨F⟩ := by
  simp only [decodeCatFact, hp, deCatFact]
  rw [findField_found "text" fields F hmem hone]
  rfl

/-- C5 witness: a body with an unknown member and an embedded comma and colon
inside the text. -/
theorem decodeCatFact_extracts_text_witness :
    decodeCatFact messyCatBody = .ok ⟨"x: y, z"⟩ :=
  decodeCatFact_extracts_text messyCatBody
    [("text", Json.str "x: y, z"), ("extra", Json.null)]
    "x: y, z" rfl (List.mem_cons_self _ _) rfl

/-- C6: on an input that is not valid JSON, or is valid JSON in which the
required field (`title` for the to-do decoder, `text` for the cat-fact
decoder) never occurs as a string member of an object, the decoder returns an
error value — the decoders are total functions into `Except`, so they never
panic, and the error constructor rules out a default record. -/
theorem decoders_error_on_bad_input (s : String) :
    (parseJson s = none →
      (∃ e, decodeTodo s = .error e) ∧ (∃ e, decodeCatFact s = .error e)) ∧
    (∀ j, parseJson s = some j →
      (∀ fields, j = Json.obj fields → ∀ t : String, ("title", Json.str t) ∉ fields) →
      ∃ e, decodeTodo s = .error e) ∧
    (∀ j, parseJson s = some j →
      (∀ fields, j = Json.obj fields → ∀ t : String, ("text", Json.str t) ∉ fields) →
      ∃ e, decodeCatFact s = .error e) := by
  refine ⟨fun h => ⟨⟨"invalid JSON", by simp [decodeTodo, h]⟩,
    ⟨"invalid JSON", by simp [decodeCatFact, h]⟩⟩, ?_, ?_⟩
  · intro j hj hfields
    rcases j with _ | b | n | sv | es | ms
    · exact ⟨"invalid type: expected struct TODO", by simp [decodeTodo, hj, deTODO]⟩
    · exact ⟨"invalid type: expected struct TODO", by simp [decodeTodo, hj, deTODO]⟩
    · exact ⟨"invalid type: expected struct TODO", by simp [decodeTodo, hj, deTODO]⟩
    · exact ⟨"invalid type: expected struct TODO", by simp [decodeTodo, hj, deTODO]⟩
    · exact ⟨"invalid type: expected struct TODO", by simp [decodeTodo, hj, deTODO]⟩
    · obtain ⟨e, he⟩ := findField_absent "title" ms (hfields ms rfl)
      exact ⟨e, by simp [decodeTodo, hj, deTODO, he, Except.map]⟩
  · intro j hj hfields
    rcases j with _ | b | n | sv | es | ms
    · exact ⟨"invalid type: expected struct CatFact", by simp [decodeCatFact, hj, deCatFact]⟩
    · exact ⟨"invalid type: expected struct CatFact", by simp [decodeCatFact, hj, deCatFact]⟩
    · exact ⟨"invalid type: expected struct CatFact", by simp [decodeCatFact, hj, deCatFact]⟩
    · exact ⟨"invalid type: expected struct CatFact", by simp [decodeCatFact, hj, deCatFact]⟩
    · exact ⟨"invalid type: expected struct CatFact", by simp [decodeCatFact, hj, deCatFact]⟩
    · obtain ⟨e, he⟩ := findField_absent "text" ms (hfields ms rfl)
      exact ⟨e, by simp [decodeCatFact, hj, deCatFact, he, Except.map]⟩

/-- C6 witness: malformed JSON, a valid object lacking `title`, and a valid
non-object document lacking `text`, each driven to an error. -/
theorem decoders_error_on_bad_input_witness :
    (∃ e, decodeTodo "not json" = .error e) ∧
    (∃ e, decodeTodo catBodyW = .error e) ∧
    (∃ e, decodeCatFact "[1, 2]" = .error e) :=
  ⟨((decoders_error_on_bad_input "not json").1 rfl).1,
   (decoders_error_on_bad_input catBodyW).2.1
     (Json.obj [("text", Json.str "cats are the best living creatures in the universe")]) rfl
     (fun fields hf t hmem => by injection hf with h; subst h; simp at hmem),
   (decoders_error_on_bad_input "[1, 2]").2.2
     (Json.arr [Json.num "1", Json.num "2"]) rfl
     (fun fields hf => Json.noConfusion hf)⟩

/-- C7: in `double`, if the to-do fetch, body read, or decode fails, the
handler fails and never issues the cat-fact request: run from the empty
trace, the only GET performed is the to-do URL, and the cat-fact URL is not
in the trace. -/
theorem double_short_circuit (env : Upstream) (req : HRequest) (cats_url todo_url : String)
    (h : (∃ e, env (get_todo_url todo_url) = .error e) ∨
         (∃ res e, env (get_todo_url todo_url) = .ok res ∧ res.body = .error e) ∨
         (∃ res body e, env (get_todo_url todo_url) = .ok res ∧ res.body = .ok body ∧
            decodeTodo body = .error e)) :
    (∃ e, (double env req cats_url todo_url []).1 = .error e) ∧
    (double env req cats_url todo_url []).2 = [get_todo_url todo_url] ∧
    get_cats_url cats_url ∉ (double env req cats_url todo_url []).2 := by
  have key : ∃ e, double env req cats_url todo_url [] =
      (.error e, [get_todo_url todo_url]) := by
    rcases h with ⟨e, he⟩ | ⟨res, e, hres, he⟩ | ⟨res, body, e, hres, hbody, he⟩
    · exact ⟨e, by simp [double, do_get_req, he]⟩
    · exact ⟨e, by simp [double, do_get_req, hres, he]⟩
    · exact ⟨e, by simp [double, do_get_req, hres, hbody, he]⟩
  obtain ⟨e, he⟩ := key
  refine ⟨⟨e, by rw [he]⟩, by rw [he], ?_⟩
  rw [he]
  intro hmem
  exact urls_ne cats_url todo_url (List.mem_singleton.mp hmem)

/-- C7 witness: with the to-do upstream unreachable, `double` fails and the
trace holds only the to-do URL. -/
theorem double_short_circuit_witness :
    (∃ e, (double envDown (getReq "/double") "http://c" "http://t" []).1 = .error e) ∧
    (double envDown (getReq "/double") "http://c" "http://t" []).2 =
      [get_todo_url "http://t"] ∧
    get_cats_url "http://c" ∉ (double envDown (getReq "/double") "http://c" "http://t" []).2 :=
  double_short_circuit envDown (getReq "/double") "http://c" "http://t"
    (Or.inl ⟨"connection refused", rfl⟩)

/-- C8: upstream status codes are never treated as errors: `do_get_req`
returns the response unchanged whatever its status, and for arbitrary status
codes — 2xx or not — the handlers succeed whenever the body decodes. -/
theorem status_not_inspected (env : Upstream) (cfg : ServerCfg) (req : HRequest) (t : Trace)
    (stT stC : Nat) (bT bC T F : String)
    (h1 : env (get_todo_url cfg.todo_url) = .ok ⟨stT, .ok bT⟩)
    (h3 : decodeTodo bT = .ok ⟨T⟩)
    (h4 : env (get_cats_url cfg.cats_url) = .ok ⟨stC, .ok bC⟩)
    (h6 : decodeCatFact bC = .ok ⟨F⟩) :
    (∀ uri, (do_get_req env uri t).1 = env uri) ∧
    (basic env req cfg.todo_url t).1 = .ok T ∧
    (double env req cfg.cats_url cfg.todo_url t).1 =
      .ok ("Todo: " ++ T ++ ", Cat Fact: " ++ F) := by
  refine ⟨fun uri => rfl, ?_, ?_⟩
  · simp [basic, do_get_req, h1, h3]
  · simp [double, do_get_req, h1, h3, h4, h6]

/-- C8 witness: statuses 500 and 404 with decodable bodies still produce
normal success results. -/
theorem status_not_inspected_witness :
    (∀ uri, (do_get_req env500 uri []).1 = env500 uri) ∧
    (basic env500 (getReq "/basic") cfgW.todo_url []).1 = .ok "get another cat" ∧
    (double env500 (getReq "/basic") cfgW.cats_url cfgW.todo_url []).1 =
      .ok "Todo: get another cat, Cat Fact: cats are the best living creatures in the universe" :=
  status_not_inspected env500 cfgW (getReq "/basic") [] 500 404 todoBodyW catBodyW
    "get another cat" "cats are the best living creatures in the universe" rfl rfl rfl rfl

/-- C9: route dispatch matches on the path component only: a query string on
`/basic` or `/double` does not change the routing outcome, and matching is
exact, so a trailing slash is a 404. -/
theorem route_path_only :
    (∀ (env : Upstream) (cfg : ServerCfg) (t : Trace) (req : HRequest) (q : String),
      req.method = "GET" → req.uri = "/basic?" ++ q →
      route env cfg req t = route env cfg ⟨"GET", "/basic", req.headers, req.body⟩ t) ∧
    (∀ (env : Upstream) (cfg : ServerCfg) (t : Trace) (req : HRequest) (q : String),
      req.method = "GET" → req.uri = "/double?" ++ q →
      route env cfg req t = route env cfg ⟨"GET", "/double", req.headers, req.body⟩ t) ∧
    (∀ (env : Upstream) (cfg : ServerCfg) (t : Trace) (req : HRequest),
      req.method = "GET" → req.uri = "/basic/" →
      route env cfg req t = (.ok ⟨404, ""⟩, t)) := by
  refine ⟨?_, ?_, ?_⟩
  · intro env cfg t req q hm hu
    simp only [route, hm, hu, uriPath_basic_query]
    rfl
  · intro env cfg t req q hm hu
    simp only [route, hm, hu, uriPath_double_query]
    rfl
  · intro env cfg t req hm hu
    exact route_miss env cfg req t (by rw [hm, hu]; decide)

/-- C9 witness: a query string leaves dispatch unchanged, and the trailing
slash target is a 404, at concrete requests. -/
theorem route_path_only_witness :
    route envW cfgW (getReq "/basic?x=1") [] = route envW cfgW (getReq "/basic") [] ∧
    route envW cfgW (getReq "/double?x=1") [] = route envW cfgW (getReq "/double") [] ∧
    route envW cfgW (getReq "/basic/") [] = (.ok ⟨404, ""⟩, []) :=
  ⟨route_path_only.1 envW cfgW [] (getReq "/basic?x=1") "x=1" rfl rfl,
   route_path_only.2.1 envW cfgW [] (getReq "/double?x=1") "x=1" rfl rfl,
   route_path_only.2.2 envW cfgW [] (getReq "/basic/") rfl rfl⟩

/-- C10: the handlers ignore the inbound request entirely: for any two
inbound requests, with the same upstream environment, base URLs and trace,
`basic` and `double` produce identical results — body, error and trace. -/
theorem handlers_ignore_request (env : Upstream) (cats_url todo_url : String) (t : Trace)
    (r1 r2 : HRequest) :
    basic env r1 todo_url t = basic env r2 todo_url t ∧
    double env r1 cats_url todo_url t = double env r2 cats_url todo_url t :=
  ⟨rfl, rfl⟩

end Srv
